import Mathlib

/-!
Verification development for the `secret_manager` repository.

The store (`src/secret_manager.py`, class `SecretManager`) keeps a mapping of
secrets in a YAML file and refuses every write unless the secrets path is
covered by the ignore machinery.  We embed the store shallowly:

* Python `dict[str, Any]` becomes an insertion-ordered association list
  (`SecretDict`) with the exact `get` / `[...]=` / `del` / `in` semantics.
* `pathlib.Path` becomes a list of components (`PyPath`); `Path.name` is the
  last component and `Path.relative_to` succeeds exactly when the root
  components are a prefix, raising `ValueError` otherwise.
* The ignore manager and the project root are an environment of pure
  predicates (`Env`), the YAML module an abstract serializer (`Serializer`)
  whose round-trip behaviour enters theorems as an explicit hypothesis.
* The only file the store touches is its secrets file, so the filesystem
  state is `Option String` (none = file absent); the logger accumulates a
  list of entries.  Operations that can raise `SecretNotIgnoredError`
  return `Except SMError _ × SMState`, the state recording the side effects
  performed before any raise.
-/

/-- Severity of a log entry emitted through `utils.logger_util.Logger`. -/
inductive LogLevel where
  | info
  | debug
  | error
deriving DecidableEq, Repr

/-- One log entry: a severity and the formatted message string. -/
structure LogEntry where
  level : LogLevel
  msg : String
deriving DecidableEq, Repr

/-- Values a YAML document can denote (result of `yaml.safe_load`): scalars,
sequences and mappings.  The store only ever inspects whether the top level
is a mapping (`isinstance(data, dict)`). -/
inductive Yaml where
  | null
  | bool (b : Bool)
  | num (n : Int)
  | str (s : String)
  | arr (elems : List Yaml)
  | map (entries : List (String × Yaml))

/-- Counterpart of Python `isinstance(data, dict)` on a parsed value. -/
def Yaml.isMap : Yaml → Bool
  | .map _ => true
  | _ => false

/-- A Python `dict[str, Any]`: insertion-ordered association list with
(unique, in real Python) string keys. -/
abbrev SecretDict := List (String × Yaml)

/-- Python `d.get(key)` lookup: the value bound to the key, if present. -/
def dictFind : SecretDict → String → Option Yaml
  | [], _ => none
  | (k, v) :: rest, key => if k = key then some v else dictFind rest key

/-- Python `d[key] = v`: overwrite in place when the key exists, append
at the end otherwise. -/
def dictInsert : SecretDict → String → Yaml → SecretDict
  | [], key, v => [(key, v)]
  | (k, w) :: rest, key, v =>
      if k = key then (k, v) :: rest else (k, w) :: dictInsert rest key v

/-- Python `del d[key]`: remove the (unique) binding for the key. -/
def dictErase : SecretDict → String → SecretDict
  | [], _ => []
  | (k, v) :: rest, key => if k = key then rest else (k, v) :: dictErase rest key

/-- A filesystem path as its list of components, standing in for
`pathlib.Path`. -/
structure PyPath where
  components : List String
deriving DecidableEq, Repr

/-- Python `Path.name`: the final path component (empty for the empty path). -/
def PyPath.name (p : PyPath) : String :=
  p.components.getLastD ""

/-- Render a path the way `str(Path(...))` does: components joined by the
separator, the empty relative path printing as a dot. -/
def PyPath.toStr (p : PyPath) : String :=
  if p.components.isEmpty then "." else String.intercalate "/" p.components

/-- Remove a leading run of root components; `none` when the root is not a
leading run of the path. -/
def relComponents : List String → List String → Option (List String)
  | [], rest => some rest
  | _ :: _, [] => none
  | r :: rs, c :: cs => if r = c then relComponents rs cs else none

/-- Python `Path.relative_to(root)`: the suffix after the root components,
or a `ValueError` when the path does not lie under the root. -/
def PyPath.relative_to (p root : PyPath) : Except String PyPath :=
  match relComponents root.components p.components with
  | some rest => Except.ok ⟨rest⟩
  | none => Except.error "ValueError"

/-- The ambient environment of a store instance: the two `IgnoreManager`
queries and the project root that `_find_project_root` resolves.  Within one
operation the source can only observe these as pure functions. -/
structure Env where
  is_ignored : String → Bool
  is_globally_ignored : String → Bool
  project_root : PyPath

/-- The YAML module as consumed by the store: `yaml.dump` on a dict and
`yaml.safe_load` on text, the latter either a parsed value or a
`yaml.YAMLError` message. -/
structure Serializer where
  dump : SecretDict → String
  parse : String → Except String Yaml

/-- Mutable world of one store: the content of the secrets file (`none` when
the file does not exist) and the accumulated log. -/
structure SMState where
  file : Option String
  log : List LogEntry
deriving DecidableEq, Repr

/-- Append one log entry. -/
def SMState.pushLog (st : SMState) (e : LogEntry) : SMState :=
  ⟨st.file, st.log ++ [e]⟩

/-- Overwrite the secrets file with new full content. -/
def SMState.writeFile (st : SMState) (content : String) : SMState :=
  ⟨some content, st.log⟩

/-- The only exception type the store raises itself
(`SecretNotIgnoredError`). -/
inductive SMError where
  | secretNotIgnored (msg : String)
deriving DecidableEq, Repr

/-- `SecretManager.DEFAULT_SECRETS_PATH`. -/
def DEFAULT_SECRETS_PATH : String := "project/data/secrets.yaml"

/-- `SecretManager.SECRETS_PATTERNS`. -/
def SECRETS_PATTERNS : List String :=
  ["project/data/secrets.yaml", "project/data/secrets.*.yaml"]

/-- Path resolution performed by `SecretManager.__init__`: an explicit
override is taken verbatim, otherwise the default location under the
project root. -/
def resolveSecretsPath (root : PyPath) (override : Option PyPath) : PyPath :=
  match override with
  | some p => p
  | none => ⟨root.components ++ ["project", "data", "secrets.yaml"]⟩

/-- Message of the `SecretNotIgnoredError` raised by
`_validate_ignored_before_write`. -/
def notIgnoredMsg (p : PyPath) : String :=
  "SECURITY: Secrets file \x27" ++ p.toStr ++ "\x27 is NOT in .gitignore! " ++
    "Refusing to write secrets. Call ensure_ignored() first or add manually."

/-- `_validate_ignored_before_write`, as a predicate: `true` when the check
passes (the method returns), `false` when it raises.  The source first scans
`SECRETS_PATTERNS` through `is_ignored`, then the bare filename, then tries
the path relative to the project root against `is_globally_ignored`,
falling back to the bare filename on `ValueError`. -/
def validateIgnoredBeforeWrite (env : Env) (path : PyPath) : Bool :=
  if SECRETS_PATTERNS.any env.is_ignored then true
  else if env.is_ignored path.name then true
  else
    match path.relative_to env.project_root with
    | Except.ok rel => env.is_globally_ignored rel.toStr
    | Except.error _ => env.is_globally_ignored path.name

/-- Log message of `_load_secrets` on a `yaml.YAMLError`. -/
def parseErrorMsg (e : String) : String :=
  "Failed to parse secrets file: " ++ e

/-- Log message of a successful `set_secret`. -/
def savedMsg (key : String) : String :=
  "Secret \x27" ++ key ++ "\x27 saved"

/-- Log message of a successful removing `delete_secret`. -/
def deletedMsg (key : String) : String :=
  "Secret \x27" ++ key ++ "\x27 deleted"

/-- Log message of `delete_secret` on an absent key. -/
def notFoundMsg (key : String) : String :=
  "Secret \x27" ++ key ++ "\x27 not found"

/-- `_load_secrets`: empty mapping when the file does not exist; otherwise
parse, keep the value only when it is a dict, and on a `yaml.YAMLError`
log an error and return the empty mapping. -/
def loadSecrets (ser : Serializer) (st : SMState) : SecretDict × SMState :=
  match st.file with
  | none => ([], st)
  | some content =>
    match ser.parse content with
    | Except.ok (Yaml.map m) => (m, st)
    | Except.ok _ => ([], st)
    | Except.error e => ([], st.pushLog ⟨LogLevel.error, parseErrorMsg e⟩)

/-- `_save_secrets`: serialize the full mapping and overwrite the file
(the parent-directory creation touches no modelled state). -/
def saveSecrets (ser : Serializer) (secrets : SecretDict) (st : SMState) : SMState :=
  st.writeFile (ser.dump secrets)

/-- `get_secret`: load, then `secrets.get(key, default)`. -/
def get_secret (ser : Serializer) (st : SMState) (key : String) (default : Yaml) :
    Yaml × SMState :=
  let ls := loadSecrets ser st
  ((dictFind ls.1 key).getD default, ls.2)

/-- `set_secret`: validate, load, bind the key, save, log. -/
def set_secret (env : Env) (ser : Serializer) (path : PyPath) (key : String)
    (value : Yaml) (st : SMState) : Except SMError Unit × SMState :=
  if validateIgnoredBeforeWrite env path then
    let ls := loadSecrets ser st
    let st2 := saveSecrets ser (dictInsert ls.1 key value) ls.2
    (Except.ok (), st2.pushLog ⟨LogLevel.info, savedMsg key⟩)
  else
    (Except.error (SMError.secretNotIgnored (notIgnoredMsg path)), st)

/-- `delete_secret`: validate, load, return `false` on an absent key,
otherwise remove it, save and log. -/
def delete_secret (env : Env) (ser : Serializer) (path : PyPath) (key : String)
    (st : SMState) : Except SMError Bool × SMState :=
  if validateIgnoredBeforeWrite env path then
    let ls := loadSecrets ser st
    match dictFind ls.1 key with
    | none => (Except.ok false, ls.2.pushLog ⟨LogLevel.debug, notFoundMsg key⟩)
    | some _ =>
      let st2 := saveSecrets ser (dictErase ls.1 key) ls.2
      (Except.ok true, st2.pushLog ⟨LogLevel.info, deletedMsg key⟩)
  else
    (Except.error (SMError.secretNotIgnored (notIgnoredMsg path)), st)

/-- `list_secrets`: the keys of the loaded mapping, in order. -/
def list_secrets (ser : Serializer) (st : SMState) : List String × SMState :=
  let ls := loadSecrets ser st
  (ls.1.map Prod.fst, ls.2)

/-- `has_secret`: membership in the loaded mapping. -/
def has_secret (ser : Serializer) (st : SMState) (key : String) : Bool × SMState :=
  let ls := loadSecrets ser st
  ((dictFind ls.1 key).isSome, ls.2)

/-- `get_multiple`: one load, then the comprehension
`\x7bkey: secrets.get(key) for key in keys\x7d` (missing keys bound to
`None`). -/
def get_multiple (ser : Serializer) (st : SMState) (keys : List String) :
    SecretDict × SMState :=
  let ls := loadSecrets ser st
  (keys.foldl (fun acc k => dictInsert acc k ((dictFind ls.1 k).getD Yaml.null)) [],
   ls.2)

/-- `is_protected`: `is_ignored(str(secrets_path.relative_to(project_root)))`.
The source does not guard the `relative_to` call, so a path outside the
project root propagates the `ValueError`. -/
def is_protected (env : Env) (path : PyPath) : Except String Bool :=
  match path.relative_to env.project_root with
  | Except.ok rel => Except.ok (env.is_ignored rel.toStr)
  | Except.error e => Except.error e

/-- The write-invariant check exactly as the specification words it: five
prioritized checks, short-circuiting on the first success. -/
def specInvariantCheck (env : Env) (path : PyPath) : Bool :=
  if env.is_ignored "project/data/secrets.yaml" then true
  else if env.is_ignored "project/data/secrets.*.yaml" then true
  else if env.is_ignored path.name then true
  else
    match path.relative_to env.project_root with
    | Except.ok rel => env.is_globally_ignored rel.toStr
    | Except.error _ => env.is_globally_ignored path.name

/-! ## Association-list lemmas (Python dict semantics) -/

theorem dictFind_insert_self (d : SecretDict) (k : String) (v : Yaml) :
    dictFind (dictInsert d k v) k = some v := by
  induction d with
  | nil => simp [dictInsert, dictFind]
  | cons hd tl ih =>
    obtain ⟨k0, v0⟩ := hd
    by_cases h : k0 = k
    · simp [dictInsert, dictFind, h]
    · simp [dictInsert, dictFind, h, ih]

theorem dictFind_insert_ne (d : SecretDict) (k k2 : String) (v : Yaml)
    (h : k2 ≠ k) : dictFind (dictInsert d k v) k2 = dictFind d k2 := by
  induction d with
  | nil => simp [dictInsert, dictFind, Ne.symm h]
  | cons hd tl ih =>
    obtain ⟨k0, v0⟩ := hd
    by_cases h0 : k0 = k
    · subst h0
      simp [dictInsert, dictFind, Ne.symm h]
    · simp [dictInsert, dictFind, h0, ih]

theorem dictFind_erase_ne (d : SecretDict) (k k2 : String)
    (h : k2 ≠ k) : dictFind (dictErase d k) k2 = dictFind d k2 := by
  induction d with
  | nil => simp [dictErase]
  | cons hd tl ih =>
    obtain ⟨k0, v0⟩ := hd
    by_cases h0 : k0 = k
    · subst h0
      simp [dictErase, dictFind, Ne.symm h]
    · simp [dictErase, dictFind, h0, ih]

theorem dictFind_eq_none_of_not_mem (d : SecretDict) (k : String)
    (h : k ∉ d.map Prod.fst) : dictFind d k = none := by
  induction d with
  | nil => simp [dictFind]
  | cons hd tl ih =>
    obtain ⟨k0, v0⟩ := hd
    simp only [List.map_cons, List.mem_cons, not_or] at h
    simp [dictFind, Ne.symm h.1, ih h.2]

theorem dictFind_erase_self (d : SecretDict) (k : String)
    (hnd : (d.map Prod.fst).Nodup) : dictFind (dictErase d k) k = none := by
  induction d with
  | nil => simp [dictErase, dictFind]
  | cons hd tl ih =>
    obtain ⟨k0, v0⟩ := hd
    simp only [List.map_cons, List.nodup_cons] at hnd
    by_cases h0 : k0 = k
    · subst h0
      simpa [dictErase] using dictFind_eq_none_of_not_mem tl k0 hnd.1
    · simp [dictErase, dictFind, h0, ih hnd.2]

/-- Lookup in the dict built by the `get_multiple` comprehension: every
requested key is bound to the looked-up value, everything else falls back to
the accumulator. -/
theorem dictFind_foldl_comprehension (m : SecretDict) (keys : List String)
    (acc : SecretDict) (k : String) :
    dictFind
      (keys.foldl (fun a key => dictInsert a key ((dictFind m key).getD Yaml.null)) acc) k
      = if k ∈ keys then some ((dictFind m k).getD Yaml.null) else dictFind acc k := by
  induction keys generalizing acc with
  | nil => simp
  | cons k0 rest ih =>
    simp only [List.foldl_cons]
    rw [ih]
    by_cases hk : k ∈ rest
    · simp [hk]
    · by_cases he : k = k0
      · subst he
        simp [hk, dictFind_insert_self]
      · simp [hk, he, dictFind_insert_ne _ _ _ _ he]

/-! ## Concrete instances used by witnesses -/

/-- Environment in which nothing is ignored. -/
def envNoIgnore : Env := ⟨fun _ => false, fun _ => false, ⟨["root"]⟩⟩

/-- Environment in which every pattern is ignored. -/
def envAllIgnore : Env := ⟨fun _ => true, fun _ => true, ⟨["root"]⟩⟩

/-- The default secrets path under the root used by the witness
environments. -/
def pathDefault : PyPath := ⟨["root", "project", "data", "secrets.yaml"]⟩

/-- Serializer whose parse always yields a non-mapping scalar. -/
def serNull : Serializer := ⟨fun _ => "", fun _ => Except.ok Yaml.null⟩

/-- Fresh state: no secrets file, empty log. -/
def st0 : SMState := ⟨none, []⟩

/-- One-entry mapping used by round-trip witnesses. -/
def dictW : SecretDict := [("k", Yaml.str "v")]

/-- Serializer that round-trips `dictW`. -/
def serConstW : Serializer := ⟨fun _ => "f", fun _ => Except.ok (Yaml.map dictW)⟩

/-! ## Claims -/

/-- Claim C1: the write-invariant check of `set_secret` and `delete_secret`
(`_validate_ignored_before_write`) follows exactly the five-step priority
cascade the specification states, short-circuiting on the first success:
exact pattern, wildcard pattern, bare filename, relative path against the
global-ignore predicate when under the project root, bare filename against
the global-ignore predicate otherwise; only when all five fail does the
operation raise. -/
theorem validate_matches_spec_cascade (env : Env) (path : PyPath) :
    validateIgnoredBeforeWrite env path = specInvariantCheck env path := by
  unfold validateIgnoredBeforeWrite specInvariantCheck SECRETS_PATTERNS
  cases h1 : env.is_ignored "project/data/secrets.yaml" <;>
    cases h2 : env.is_ignored "project/data/secrets.*.yaml" <;>
      simp [h1, h2]

/-- Claim C2: when the secrets path satisfies none of the ignore checks,
`set_secret` and `delete_secret` raise `SecretNotIgnoredError` and leave the
state — in particular the secrets file — exactly as it was: no write of any
kind happens before the check. -/
theorem write_refused_when_not_ignored (env : Env) (ser : Serializer)
    (path : PyPath) (key : String) (value : Yaml) (st : SMState)
    (h : validateIgnoredBeforeWrite env path = false) :
    set_secret env ser path key value st
      = (Except.error (SMError.secretNotIgnored (notIgnoredMsg path)), st)
    ∧ delete_secret env ser path key st
      = (Except.error (SMError.secretNotIgnored (notIgnoredMsg path)), st) := by
  unfold set_secret delete_secret
  simp [h]

/-- Witness for C2 at a concrete store whose path is ignored nowhere. -/
theorem write_refused_when_not_ignored_witness :
    validateIgnoredBeforeWrite envNoIgnore pathDefault = false
    ∧ set_secret envNoIgnore serNull pathDefault "k" (Yaml.str "v") st0
        = (Except.error (SMError.secretNotIgnored (notIgnoredMsg pathDefault)), st0) :=
  ⟨rfl, (write_refused_when_not_ignored envNoIgnore serNull pathDefault "k"
      (Yaml.str "v") st0 rfl).1⟩

/-- Claim C3: saving a mapping and loading it back is the identity, given the
round-trip stability of the serializer on that mapping. -/
theorem save_then_load_roundtrip (ser : Serializer) (st : SMState)
    (M : SecretDict) (h : ser.parse (ser.dump M) = Except.ok (Yaml.map M)) :
    (loadSecrets ser (saveSecrets ser M st)).1 = M := by
  unfold loadSecrets saveSecrets SMState.writeFile
  simp [h]

/-- Witness for C3 with a concrete round-tripping serializer. -/
theorem save_then_load_roundtrip_witness :
    serConstW.parse (serConstW.dump dictW) = Except.ok (Yaml.map dictW)
    ∧ (loadSecrets serConstW (saveSecrets serConstW dictW st0)).1 = dictW :=
  ⟨rfl, save_then_load_roundtrip serConstW st0 dictW rfl⟩

/-- Serializer that always raises a `yaml.YAMLError` on parse. -/
def serErrW : Serializer := ⟨fun _ => "", fun _ => Except.error "bad"⟩

/-- State whose secrets file exists with unparsable content. -/
def stMalformed : SMState := ⟨some "x", []⟩

/-- Claim C4: when the secrets file exists but fails to parse, load logs one
error entry and yields the empty mapping; every reader then sees an empty
store, and `set_secret` / `delete_secret` still return normally under a
passing invariant — no parse error escapes as an exception. -/
theorem load_parse_error_spec (ser : Serializer) (st : SMState) (c e : String)
    (h1 : st.file = some c) (h2 : ser.parse c = Except.error e) :
    loadSecrets ser st = ([], st.pushLog ⟨LogLevel.error, parseErrorMsg e⟩)
    ∧ (∀ key d, (get_secret ser st key d).1 = d)
    ∧ (list_secrets ser st).1 = []
    ∧ (∀ key, (has_secret ser st key).1 = false)
    ∧ (∀ keys k, k ∈ keys → dictFind (get_multiple ser st keys).1 k = some Yaml.null)
    ∧ (∀ env path key v, validateIgnoredBeforeWrite env path = true →
        (set_secret env ser path key v st).1 = Except.ok ())
    ∧ (∀ env path key, validateIgnoredBeforeWrite env path = true →
        (delete_secret env ser path key st).1 = Except.ok false) := by
  have hload : loadSecrets ser st
      = ([], st.pushLog ⟨LogLevel.error, parseErrorMsg e⟩) := by
    unfold loadSecrets
    rw [h1]
    simp [h2]
  refine ⟨hload, ?_, ?_, ?_, ?_, ?_, ?_⟩
  · intro key d
    simp [get_secret, hload, dictFind]
  · simp [list_secrets, hload]
  · intro key
    simp [has_secret, hload, dictFind]
  · intro keys k hk
    have hgm : (get_multiple ser st keys).1
        = keys.foldl
            (fun acc k2 => dictInsert acc k2 ((dictFind ([] : SecretDict) k2).getD Yaml.null))
            [] := by
      unfold get_multiple
      rw [hload]
    rw [hgm, dictFind_foldl_comprehension]
    simp [hk, dictFind]
  · intro env path key v hv
    simp [set_secret, hv]
  · intro env path key hv
    simp [delete_secret, hv, hload, dictFind]

/-- Witness for C4 on a concrete malformed file. -/
theorem load_parse_error_spec_witness :
    loadSecrets serErrW stMalformed
      = ([], stMalformed.pushLog ⟨LogLevel.error, parseErrorMsg "bad"⟩) :=
  (load_parse_error_spec serErrW stMalformed "x" "bad" rfl rfl).1

/-- Claim C5: `get_secret` returns the stored value when the key is present
in the on-disk mapping and the default otherwise, and a missing secrets file
behaves as the empty mapping — the operation is total, never raising on a
missing key or missing file. -/
theorem get_secret_spec (ser : Serializer) (st : SMState) (key : String)
    (d : Yaml) :
    (st.file = none → (get_secret ser st key d).1 = d)
    ∧ (∀ c M, st.file = some c → ser.parse c = Except.ok (Yaml.map M) →
        (get_secret ser st key d).1 = (dictFind M key).getD d) := by
  constructor
  · intro h
    simp [get_secret, loadSecrets, h, dictFind]
  · intro c M h1 h2
    simp [get_secret, loadSecrets, h1, h2]

/-- Witness for C5 on a store with no secrets file. -/
theorem get_secret_spec_witness :
    (get_secret serConstW st0 "k" Yaml.null).1 = Yaml.null :=
  (get_secret_spec serConstW st0 "k" Yaml.null).1 rfl

/-- Two-entry mapping used by delete witnesses. -/
def dictW2 : SecretDict := [("a", Yaml.str "1"), ("b", Yaml.str "2")]

/-- Serializer whose parse yields `dictW2`. -/
def serMapW : Serializer := ⟨fun _ => "d", fun _ => Except.ok (Yaml.map dictW2)⟩

/-- Claim C6: under a passing write invariant, deleting an absent key returns
`false` and leaves the file untouched, while deleting a present key returns
`true` and persists the previous mapping with exactly that key removed and
every other binding unchanged. -/
theorem delete_secret_spec (env : Env) (ser : Serializer) (path : PyPath)
    (key : String) (st : SMState) (c : String) (M : SecretDict)
    (hv : validateIgnoredBeforeWrite env path = true)
    (hf : st.file = some c)
    (hp : ser.parse c = Except.ok (Yaml.map M))
    (hnd : (M.map Prod.fst).Nodup) :
    (dictFind M key = none →
      delete_secret env ser path key st
        = (Except.ok false, ⟨st.file, st.log ++ [⟨LogLevel.debug, notFoundMsg key⟩]⟩))
    ∧ (∀ v, dictFind M key = some v →
      delete_secret env ser path key st
        = (Except.ok true, ⟨some (ser.dump (dictErase M key)),
            st.log ++ [⟨LogLevel.info, deletedMsg key⟩]⟩)
      ∧ dictFind (dictErase M key) key = none
      ∧ ∀ k2, k2 ≠ key → dictFind (dictErase M key) k2 = dictFind M k2) := by
  have hload : loadSecrets ser st = (M, st) := by
    unfold loadSecrets
    rw [hf]
    simp [hp]
  constructor
  · intro habs
    simp [delete_secret, hv, hload, habs, SMState.pushLog]
  · intro v hpres
    refine ⟨?_, dictFind_erase_self M key hnd,
      fun k2 hne => dictFind_erase_ne M key k2 hne⟩
    simp [delete_secret, hv, hload, hpres, saveSecrets, SMState.writeFile,
      SMState.pushLog]

/-- Witness for C6: deleting the present key `a` from a concrete two-entry
store. -/
theorem delete_secret_spec_witness :
    delete_secret envAllIgnore serMapW pathDefault "a" stMalformed
      = (Except.ok true, ⟨some (serMapW.dump (dictErase dictW2 "a")),
          stMalformed.log ++ [⟨LogLevel.info, deletedMsg "a"⟩]⟩) :=
  ((delete_secret_spec envAllIgnore serMapW pathDefault "a" stMalformed "x"
      dictW2 rfl rfl rfl (by decide)).2 (Yaml.str "1") rfl).1

/-- Claim C7 counterexample: a store constructed with an override path
outside the project root makes `is_protected` raise the uncaught
`ValueError` from `Path.relative_to` instead of returning a boolean. -/
theorem is_protected_raises_outside_root :
    is_protected envAllIgnore
      (resolveSecretsPath envAllIgnore.project_root (some ⟨["tmp", "s.yaml"]⟩))
      = Except.error "ValueError" := rfl

/-- Claim C7 (amended): `is_protected` is a pure query returning whether the
secrets path relative to the project root is in the ignored set, for every
store whose secrets path lies under the project root; for a store whose
path is outside the root the unguarded `relative_to` call raises
`ValueError`. -/
theorem is_protected_spec (env : Env) (path : PyPath) (rel : PyPath)
    (h : path.relative_to env.project_root = Except.ok rel) :
    is_protected env path = Except.ok (env.is_ignored rel.toStr) := by
  unfold is_protected
  rw [h]

/-- Witness for the amended C7 on the default in-root path. -/
theorem is_protected_spec_witness :
    is_protected envAllIgnore pathDefault = Except.ok true := by
  simpa using is_protected_spec envAllIgnore pathDefault
    ⟨["project", "data", "secrets.yaml"]⟩ rfl

/-- Claim C8: `get_multiple` loads once and returns a dict with an entry for
every requested key — present keys bound to their stored value, missing keys
bound to `None` — and with no entry for a key that was not requested; a
duplicated request key still has its entry. -/
theorem get_multiple_spec (ser : Serializer) (st : SMState)
    (keys : List String) :
    (∀ k, k ∈ keys →
      dictFind (get_multiple ser st keys).1 k
        = some ((dictFind (loadSecrets ser st).1 k).getD Yaml.null))
    ∧ (∀ k, (dictFind (get_multiple ser st keys).1 k).isSome = true →
        k ∈ keys) := by
  have hgm : (get_multiple ser st keys).1
      = keys.foldl
          (fun acc k2 =>
            dictInsert acc k2 ((dictFind (loadSecrets ser st).1 k2).getD Yaml.null))
          [] := rfl
  constructor
  · intro k hk
    rw [hgm, dictFind_foldl_comprehension]
    simp [hk]
  · intro k hk
    rw [hgm, dictFind_foldl_comprehension] at hk
    by_cases hmem : k ∈ keys
    · exact hmem
    · simp [hmem, dictFind] at hk

/-- Witness for C8 on a duplicated key list over a concrete store. -/
theorem get_multiple_spec_witness :
    dictFind (get_multiple serConstW stMalformed ["a", "k", "a"]).1 "k"
      = some (Yaml.str "v") := by
  have h := (get_multiple_spec serConstW stMalformed ["a", "k", "a"]).1 "k"
    (by decide)
  simp only [loadSecrets, stMalformed, serConstW, dictW, dictFind] at h
  exact h

/-- Claim C9: the log of a successful `set_secret` is independent of the
stored value — two calls with the same key and different values produce
identical logs — and the final entry is the informational message naming
the key. -/
theorem set_secret_log_names_key_not_value (env : Env) (ser : Serializer)
    (path : PyPath) (key : String) (v1 v2 : Yaml) (st : SMState)
    (hv : validateIgnoredBeforeWrite env path = true) :
    (set_secret env ser path key v1 st).2.log
      = (set_secret env ser path key v2 st).2.log
    ∧ (set_secret env ser path key v1 st).2.log.getLast?
      = some ⟨LogLevel.info, savedMsg key⟩ := by
  constructor
  · simp [set_secret, hv, saveSecrets, SMState.writeFile, SMState.pushLog]
  · simp [set_secret, hv, saveSecrets, SMState.writeFile, SMState.pushLog]

/-- Witness for C9 at two concrete distinct values. -/
theorem set_secret_log_names_key_not_value_witness :
    (set_secret envAllIgnore serNull pathDefault "k" (Yaml.str "a") st0).2.log
      = (set_secret envAllIgnore serNull pathDefault "k" (Yaml.str "b") st0).2.log :=
  (set_secret_log_names_key_not_value envAllIgnore serNull pathDefault "k"
    (Yaml.str "a") (Yaml.str "b") st0 rfl).1

/-- Claim C10: a secrets file that parses to a non-mapping value (sequence,
scalar, null) is treated as an empty store silently — load returns the empty
mapping with no log entry and no exception, the readers see no secrets, and
a subsequent successful `set_secret` overwrites the file with the one-entry
mapping, discarding the non-mapping content. -/
theorem load_non_mapping_spec (ser : Serializer) (st : SMState) (c : String)
    (y : Yaml) (h1 : st.file = some c) (h2 : ser.parse c = Except.ok y)
    (h3 : y.isMap = false) :
    loadSecrets ser st = ([], st)
    ∧ (∀ key d, (get_secret ser st key d).1 = d)
    ∧ (∀ key, (has_secret ser st key).1 = false)
    ∧ (list_secrets ser st).1 = []
    ∧ (∀ keys k, k ∈ keys →
        dictFind (get_multiple ser st keys).1 k = some Yaml.null)
    ∧ (∀ env path key v, validateIgnoredBeforeWrite env path = true →
        set_secret env ser path key v st
          = (Except.ok (), ⟨some (ser.dump [(key, v)]),
              st.log ++ [⟨LogLevel.info, savedMsg key⟩]⟩)) := by
  have hload : loadSecrets ser st = ([], st) := by
    unfold loadSecrets
    rw [h1]
    cases y with
    | map m => simp [Yaml.isMap] at h3
    | null => simp [h2]
    | bool b => simp [h2]
    | num n => simp [h2]
    | str s => simp [h2]
    | arr elems => simp [h2]
  refine ⟨hload, ?_, ?_, ?_, ?_, ?_⟩
  · intro key d
    simp [get_secret, hload, dictFind]
  · intro key
    simp [has_secret, hload, dictFind]
  · simp [list_secrets, hload]
  · intro keys k hk
    have hgm : (get_multiple ser st keys).1
        = keys.foldl
            (fun acc k2 => dictInsert acc k2 ((dictFind ([] : SecretDict) k2).getD Yaml.null))
            [] := by
      unfold get_multiple
      rw [hload]
    rw [hgm, dictFind_foldl_comprehension]
    simp [hk, dictFind]
  · intro env path key v hv
    simp [set_secret, hv, hload, saveSecrets, SMState.writeFile,
      SMState.pushLog, dictInsert]

/-- Witness for C10 on a file parsing to a bare null. -/
theorem load_non_mapping_spec_witness :
    loadSecrets serNull stMalformed = ([], stMalformed) :=
  (load_non_mapping_spec serNull stMalformed "x" Yaml.null rfl rfl rfl).1
